import Mathlib

/-!
Shallow embedding of the probabilistic user-warning template extractor
(`wikidump/processors/user_warnings_probabilistic_templates_extractor.py`).

Python dictionaries are modelled as insertion-ordered association lists,
generators as the lists they produce when fully consumed, and an uncaught
exception as `Option.none` propagating to the caller.  The external matcher
`extractors.user_warnings_probabilistic_subst.extract_probabilistic_user_warning_templates`
is abstracted as a function parameter from a revision to its match records.
-/

/-- A JSON value, as produced by `to_dict` followed by `json.dumps`.  Objects
keep their key insertion order, mirroring Python dictionaries. -/
inductive Json where
  | str : String → Json
  | num : Int → Json
  | arr : List Json → Json
  | obj : List (String × Json) → Json
  | null : Json

/-- Lookup of a key in a JSON object (the inverse direction of the feature
JSON schema: `json.loads` of a serialized object recovers exactly this
association list, so field recovery is association-list lookup). -/
def jsonLookup (j : Json) (k : String) : Option Json :=
  match j with
  | Json.obj fields => (fields.find? (fun kv => kv.fst == k)).map (fun kv => kv.snd)
  | _ => none

/-- A possible user-warning template found in a revision
(`extractors.user_warnings_probabilistic_subst.UserWarningTokens`): the code
of this extractor only reads its `name` and calls its `to_dict`, so it is
modelled by those two attributes. -/
structure UWTemplate where
  name : String
  dict : Json

/-- A dump revision user (`mwxml.Revision.User`): an optional numeric id and
the user text. -/
structure MwUser where
  id : Option Int
  text : String

/-- A revision as handed over by the dump reader (`mwxml.Revision`).
`timestamp` is the ISO-8601 string `mw_revision.timestamp.to_json()` returns,
and `text` the revision body after `utils.remove_comments`. -/
structure MwRevision where
  id : Int
  user : Option MwUser
  timestamp : String
  text : String

/-- A page as handed over by the dump reader (`mwxml.Page`). -/
structure MwPage where
  id : Int
  nspace : Int
  title : String
  revisions : List MwRevision

/-- The processor's `Revision` class: revision data plus the probable
user-warning templates found in it. -/
structure Revision where
  id : Int
  user : Option MwUser
  timestamp : String
  templates : List UWTemplate

/-- The processor's `Page` class. -/
structure Page where
  id : Int
  nspace : Int
  title : String
  revisions : List Revision

/-- `Revision.to_dict`. -/
def Revision.toDict (r : Revision) : Json :=
  Json.obj
    [ ("id", Json.num r.id)
    , ("user_id", match r.user with
        | none => Json.str ""
        | some u => match u.id with
          | none => Json.null
          | some i => Json.num i)
    , ("user_name", match r.user with
        | none => Json.str ""
        | some u => Json.str u.text)
    , ("timestamp", Json.str r.timestamp)
    , ("templates", Json.arr (r.templates.map (fun t => t.dict))) ]

/-- `Page.to_dict`. -/
def Page.toDict (p : Page) : Json :=
  Json.obj
    [ ("id", Json.num p.id)
    , ("namespace", Json.num p.nspace)
    , ("title", Json.str p.title)
    , ("revisions", Json.arr (p.revisions.map Revision.toDict)) ]

/-- A parsed UTC instant: (year, month, day, hour, minute, second), the
fields `datetime.fromisoformat` compares for two timestamps carrying the
same (+00:00) offset. -/
abbrev Instant := Nat × Nat × Nat × Nat × Nat × Nat

/-- `timestamp.replace('Z', '+00:00')` on the character sequence: every
occurrence of 'Z' is replaced by "+00:00". -/
def replaceZ : List Char → List Char
  | [] => []
  | c :: cs =>
    if c = 'Z' then '+' :: '0' :: '0' :: ':' :: '0' :: '0' :: replaceZ cs
    else c :: replaceZ cs

/-- Splitting a character sequence at every occurrence of a separator
character (the string `split` used to take an ISO timestamp apart). -/
def splitOnChar (c : Char) : List Char → List (List Char)
  | [] => [[]]
  | x :: xs =>
    match splitOnChar c xs with
    | [] => [[]]
    | g :: gs => if x = c then [] :: g :: gs else (x :: g) :: gs

/-- Decimal value of a digit sequence, accumulator form. -/
def digitsValAux (acc : Nat) : List Char → Option Nat
  | [] => some acc
  | c :: cs => if c.isDigit then digitsValAux (acc * 10 + (c.toNat - 48)) cs else none

/-- Decimal value of a non-empty, all-digit character sequence (the numeric
field parse inside `fromisoformat`); `none` on anything else. -/
def digitsToNat? (l : List Char) : Option Nat :=
  match l with
  | [] => none
  | _ :: _ => digitsValAux 0 l

/-- `datetime.datetime.fromisoformat` applied after the Z replacement, for
the Z-suffixed ISO-8601 timestamps the dump reader produces
("YYYY-MM-DDTHH:MM:SSZ"): the result is the parsed UTC instant, `none`
modelling the exception on a malformed timestamp. -/
def parseISO (s : String) : Option Instant :=
  match splitOnChar 'T' (replaceZ s.data) with
  | [date, time] =>
    match splitOnChar '-' date with
    | [y, mo, d] =>
      match splitOnChar '+' time with
      | [hms, off] =>
        if off = ['0', '0', ':', '0', '0'] then
          match splitOnChar ':' hms with
          | [h, mi, sec] =>
            match digitsToNat? y, digitsToNat? mo, digitsToNat? d,
                  digitsToNat? h, digitsToNat? mi, digitsToNat? sec with
            | some yy, some mm, some dd, some hh, some mii, some ss =>
              some (yy, mm, dd, hh, mii, ss)
            | _, _, _, _, _, _ => none
          | _ => none
        else none
      | _ => none
    | _ => none
  | _ => none

/-- Strict comparison of two parsed instants, as Python compares two
timezone-aware datetimes with equal offsets: lexicographically on the
date-time fields. -/
def instantLt (a b : Instant) : Bool :=
  match a, b with
  | (y1, m1, d1, h1, mi1, s1), (y2, m2, d2, h2, mi2, s2) =>
    decide (y1 < y2 ∨ (y1 = y2 ∧ (m1 < m2 ∨ (m1 = m2 ∧ (d1 < d2 ∨ (d1 = d2 ∧
      (h1 < h2 ∨ (h1 = h2 ∧ (mi1 < mi2 ∨ (mi1 = mi2 ∧ s1 < s2))))))))))

/-- Building the processor's `Revision` object for one incoming dump
revision: the abstract `matcher` stands for the external
`extract_probabilistic_user_warning_templates` call on the revision's
comment-stripped text, language and timestamp. -/
def mkRev (matcher : MwRevision → List UWTemplate) (mw : MwRevision) : Revision :=
  { id := mw.id, user := mw.user, timestamp := mw.timestamp,
    templates := matcher mw }

/-- The newest-revision update step of `extract_revisions` (lines 154-162):
the first revision is held unconditionally; afterwards both the held and the
incoming timestamps are parsed and the held revision is replaced exactly
when the incoming instant is strictly greater.  `none` models the uncaught
exception when a timestamp fails to parse. -/
def updateNewest (cur : Option Revision) (rev : Revision) : Option Revision :=
  match cur with
  | none => some rev
  | some nr =>
    match parseISO nr.timestamp, parseISO rev.timestamp with
    | some nd, some cd => some (if instantLt nd cd then rev else nr)
    | _, _ => none

/-- The yield decision of `extract_revisions` (lines 167-180) for one
iteration: under `only_last_revision` the held newest revision `nr` is
yielded only at the final element (gated by the held newest's matches when
`only_revisions_with_user_warnings` is also set); otherwise the current
revision `rev` is yielded, gated by its own matches when the revision
filter is set. -/
def emittedOf (onlyLast onlyUW isLast : Bool) (nr rev : Revision) : List Revision :=
  if onlyLast then
    if onlyUW then
      if !nr.templates.isEmpty && isLast then [nr] else []
    else
      if isLast then [nr] else []
  else
    if onlyUW then
      if !rev.templates.isEmpty then [rev] else []
    else [rev]

/-- The revision loop of `extract_revisions`, fully consumed: given the held
newest revision so far, it returns the list of yielded revisions and the
number of revisions analyzed (`stats['performance']['revisions_analyzed']`
increments).  `is_last` is the one-element lookahead `not
utils.has_next(revisions)`: true exactly on the final element.  `none`
models an uncaught timestamp-parse exception. -/
def scanRevs (matcher : MwRevision → List UWTemplate)
    (onlyLast onlyUW : Bool) :
    Option Revision → List MwRevision → Option (List Revision × Nat)
  | _, [] => some ([], 0)
  | cur, mw :: rest =>
    let rev := mkRev matcher mw
    match updateNewest cur rev with
    | none => none
    | some nr =>
      match scanRevs matcher onlyLast onlyUW (some nr) rest with
      | none => none
      | some (tl, n) =>
        some (emittedOf onlyLast onlyUW rest.isEmpty nr rev ++ tl, n + 1)

/-- `extract_revisions` for a whole page: the scan starts with no held
newest revision. -/
def extractRevisions (matcher : MwRevision → List UWTemplate)
    (onlyLast onlyUW : Bool) (pg : MwPage) : Option (List Revision × Nat) :=
  scanRevs matcher onlyLast onlyUW none pg.revisions

/-- The mutable run statistics the processor threads through the scan
(`stats` in `main`): performance counters plus the user-warnings counters.
`template_recognized` is the insertion-ordered dictionary from template name
to count. -/
structure RunStats where
  revisions_analyzed : Nat
  pages_analyzed : Nat
  total : Nat
  template_recognized : List (String × Nat)

/-- The `stats` dictionary as initialized in `main`. -/
def initStats : RunStats :=
  { revisions_analyzed := 0, pages_analyzed := 0, total := 0,
    template_recognized := [] }

/-- Association-list lookup, the read of a Python dictionary. -/
def assocLookup {β : Type} (k : String) : List (String × β) → Option β
  | [] => none
  | (k', v) :: rest => if k' = k then some v else assocLookup k rest

/-- The two-line counter bump of `extract_pages` (lines 230-233): if the
key is absent it is created at 0, then incremented; a present key keeps its
dictionary position. -/
def bumpName : List (String × Nat) → String → List (String × Nat)
  | [], k => [(k, 1)]
  | (k', v) :: rest, k =>
    if k' = k then (k', v + 1) :: rest else (k', v) :: bumpName rest k

/-- All template names occurring in the retained revisions of a page, in
iteration order (revision by revision, template by template). -/
def namesOf (revs : List Revision) : List String :=
  revs.flatMap (fun r => r.templates.map (fun t => t.name))

/-- First-occurrence deduplication with an accumulator of already-seen
keys: the key order of the Python `to_add` dictionary. -/
def dedupFirstAux (seen : List String) : List String → List String
  | [] => []
  | x :: xs =>
    if x ∈ seen then dedupFirstAux seen xs
    else x :: dedupFirstAux (x :: seen) xs

/-- The key list of the `to_add` dictionary: each name once, in first
occurrence order. -/
def dedupFirst (l : List String) : List String :=
  dedupFirstAux [] l

/-- The `template_recognized` update of `extract_pages` for one page: every
distinct template name seen in a retained revision is bumped once. -/
def updateTemplateRecognized (tr : List (String × Nat)) (revs : List Revision) :
    List (String × Nat) :=
  (dedupFirst (namesOf revs)).foldl bumpName tr

/-- `n_occurr` of `extract_pages`: the total number of template match
records over the retained revisions of a page. -/
def nOccurr (revs : List Revision) : Nat :=
  (revs.map (fun r => r.templates.length)).sum

/-- The page loop of `extract_pages`, fully consumed: it returns the pages
yielded and the final statistics, `none` modelling an uncaught exception
from the revision scan.  Non-user-talk pages (namespace different from 3)
are skipped before any counter.  After the per-page filtering, the loop
stops (`break`) as soon as `stats.total` is positive, and only otherwise
increments `pages_analyzed` and continues with the remaining pages. -/
def extractPages (matcher : MwRevision → List UWTemplate)
    (onlyLast onlyPagesUW onlyRevsUW : Bool) :
    RunStats → List MwPage → Option (List Page × RunStats)
  | stats, [] => some ([], stats)
  | stats, pg :: rest =>
    if pg.nspace = 3 then
      match scanRevs matcher onlyLast onlyRevsUW none pg.revisions with
      | none => none
      | some (revList, nRevs) =>
        let stats1 : RunStats :=
          { stats with revisions_analyzed := stats.revisions_analyzed + nRevs }
        let stats2 : RunStats :=
          { stats1 with template_recognized :=
              updateTemplateRecognized stats1.template_recognized revList }
        let page : Page :=
          { id := pg.id, nspace := pg.nspace, title := pg.title,
            revisions := revList }
        let step : List Page × RunStats :=
          if onlyPagesUW then
            if nOccurr revList > 0 then
              ([page], { stats2 with total := stats2.total + 1 })
            else ([], stats2)
          else
            if nOccurr revList > 0 then
              ([page], { stats2 with total := stats2.total + 1 })
            else ([page], stats2)
        if step.2.total > 0 then some (step.1, step.2)
        else
          let stats4 : RunStats :=
            { step.2 with pages_analyzed := step.2.pages_analyzed + 1 }
          match extractPages matcher onlyLast onlyPagesUW onlyRevsUW stats4 rest with
          | none => none
          | some (pgs, st) => some (step.1 ++ pgs, st)
    else
      extractPages matcher onlyLast onlyPagesUW onlyRevsUW stats rest

/-- One snapshot of a template's characteristic words: the pair
`(words_to_search, timestamp)` the dictionary builder stores per revision. -/
abbrev Snapshot := List String × String

/-- The templates dictionary: template title to its ordered snapshots. -/
abbrev TemplateDict := List (String × List Snapshot)

/-- The pyahocorasick trie, dict-like: each inserted word is associated with
a single `(template_name, word)` value. -/
abbrev Trie := List (String × (String × String))

/-- `ahocorasick.Automaton.add_word(key, value)`: dict-like insertion — a
fresh key is appended, an existing key has its value replaced in place. -/
def addWord : Trie → String → String × String → Trie
  | [], k, v => [(k, v)]
  | (k', v') :: rest, k, v =>
    if k' = k then (k', v) :: rest else (k', v') :: addWord rest k v

/-- One word-list insertion pass of `build_trie`: every word of the list is
added with value `(template, word)`. -/
def addWords (template : String) (trie : Trie) (words : List String) : Trie :=
  words.foldl (fun t w => addWord t w (template, w)) trie

/-- `build_trie` (lines 97-110): for every template, for every snapshot's
word list, every word is inserted with value `(template, word)`; the
auxiliary word-set file is a side effect with no bearing on the result. -/
def build_trie (d : TemplateDict) : Trie :=
  d.foldl (fun trie entry =>
    entry.snd.foldl (fun t snap => addWords entry.fst t snap.fst) trie) []

/-- The flattened insertion sequence of `build_trie`: the `(key, value)`
pairs passed to `add_word`, in order. -/
def insertionsOf (d : TemplateDict) : List (String × (String × String)) :=
  d.flatMap (fun entry =>
    entry.snd.flatMap (fun snap =>
      snap.fst.map (fun w => (w, (entry.fst, w)))))

/-- The `(template_name, word)` pairs the automaton associates with a
pattern: the single stored value, or nothing when the pattern is absent. -/
def pairsFor (trie : Trie) (w : String) : List (String × String) :=
  match assocLookup w trie with
  | some v => [v]
  | none => []

/-- One parsed token-file line: `none` models a line on which parsing
raises (for example malformed JSON in `json.loads`); otherwise the decoded
record with its `title` and `(words_to_search, timestamp)` revisions. -/
structure TemplatePage where
  title : String
  revisions : List Snapshot

/-- A token file: its sequence of lines, each already classified by whether
it parses. -/
abbrev TokenFile := List (Option TemplatePage)

/-- Dictionary write `template_dictionary[title] = v`: an existing title
keeps its position and has its value replaced, a fresh title is appended. -/
def dictSet : TemplateDict → String → List Snapshot → TemplateDict
  | [], k, v => [(k, v)]
  | (k', v') :: rest, k, v =>
    if k' = k then (k', v) :: rest else (k', v') :: dictSet rest k v

/-- The per-file line loop of `extract_templates_words` (lines 86-93): each
parsed line resets its title's entry to the empty list and then appends the
line's snapshots (net effect: the entry becomes exactly the line's snapshot
list); the first failing line aborts the rest of the file via the
swallowed exception, keeping the dictionary built so far. -/
def processLines (d : TemplateDict) : List (Option TemplatePage) → TemplateDict
  | [] => d
  | none :: _ => d
  | some tp :: rest => processLines (dictSet d tp.title tp.revisions) rest

/-- `extract_templates_words` (lines 80-95): every file is processed in
order against the accumulated dictionary; no exception escapes. -/
def extract_templates_words (files : List TokenFile) : TemplateDict :=
  files.foldl processLines []

/-- The held newest revision after scanning a revision list (the fold of
the newest-update step alone, used to characterize what the last-revision
mode emits); `none` models the uncaught timestamp-parse exception. -/
def newestAfter (matcher : MwRevision → List UWTemplate) :
    Option Revision → List MwRevision → Option (Option Revision)
  | cur, [] => some cur
  | cur, mw :: rest =>
    match updateNewest cur (mkRev matcher mw) with
    | none => none
    | some nr => newestAfter matcher (some nr) rest

/-- The count a template name carries in `template_recognized` (0 when the
name is absent, as the code initializes absent keys to 0). -/
def countOf (tr : List (String × Nat)) (k : String) : Nat :=
  match assocLookup k tr with
  | some n => n
  | none => 0

/-- The value of the most recent insertion of a key in an insertion
sequence, if any (the dict-like overwrite semantics of the automaton). -/
def lastValueFor (w : String) : List (String × (String × String)) → Option (String × String)
  | [] => none
  | kv :: rest =>
    match lastValueFor w rest with
    | some v => some v
    | none => if kv.fst = w then some kv.snd else none

/-- A matcher for the concrete dumps below: revision 10 carries one
user-warning template, every other revision none. -/
def warnMatcher : MwRevision → List UWTemplate :=
  fun mw => if mw.id = 10 then [{ name := "uw-vandalism", dict := Json.null }] else []

/-- A user-talk page whose single revision matches a template. -/
def pageWithWarning : MwPage :=
  { id := 1, nspace := 3, title := "User talk:Alpha",
    revisions := [{ id := 10, user := none,
                    timestamp := "2020-01-01T00:00:00Z", text := "stop" }] }

/-- A second user-talk page, with no matching revision. -/
def pageAfterWarning : MwPage :=
  { id := 2, nspace := 3, title := "User talk:Beta",
    revisions := [{ id := 20, user := none,
                    timestamp := "2020-01-02T00:00:00Z", text := "hi" }] }

/-- A user-talk page whose revision timestamps are non-monotonic in dump
order: instants T1 < T2 < T3 appear in the stream as T1, T3, T2, so the
dump-order-last revision (id 3, timestamp T2) is not the newest. -/
def nonMonotonicPage : MwPage :=
  { id := 7, nspace := 3, title := "User talk:Gamma",
    revisions :=
      [ { id := 1, user := none, timestamp := "2001-01-01T00:00:00Z", text := "" }
      , { id := 2, user := none, timestamp := "2003-01-01T00:00:00Z", text := "" }
      , { id := 3, user := none, timestamp := "2002-01-01T00:00:00Z", text := "" } ] }

/-- A template dictionary in which templates "A" and "B" share the single
word "w". -/
def sharedWordDict : TemplateDict :=
  [ ("A", [(["w"], "2019-01-01T00:00:00Z")])
  , ("B", [(["w"], "2020-01-01T00:00:00Z")]) ]

lemma instantLt_irrefl (a : Instant) : instantLt a a = false := by
  obtain ⟨y, m, d, h, mi, s⟩ := a
  simp [instantLt]

/-- Claim C1 (code defect): on a dump of two user-talk pages whose first
page has a matching template, `extract_pages` emits only the first page —
the `break` taken once `user_warnings_stats.total` is positive silently
drops the second page (and skips the `pages_analyzed` increment). -/
theorem C1_early_break_drops_pages :
    (extractPages warnMatcher false false false initStats
        [pageWithWarning, pageAfterWarning]).map
      (fun r => (r.fst.map Page.title, r.snd.total, r.snd.pages_analyzed))
      = some (["User talk:Alpha"], 1, 0) := by decide

/-- Claim C6 (code defect): a single user-talk page that is driven through
the revision scanner and matches a template leaves `pages_analyzed` at 0:
the increment sits after the `break`, so the page considered last is not
counted. -/
theorem C6_pages_analyzed_skips_breaking_page :
    (extractPages warnMatcher false false false initStats [pageWithWarning]).map
      (fun r => (r.fst.length, r.snd.pages_analyzed)) = some (1, 0) := by decide

/-- Claim C2, counterexample: on the page with dump order T1, T3, T2 and
`only_last_revision` set, the revision emitted is the timestamp-newest one
(T3), not the dump-order-last one (T2) as the claim states. -/
theorem C2_counterexample :
    (extractRevisions (fun _ => []) true false nonMonotonicPage).map
        (fun r => r.fst.map Revision.timestamp)
      = some (["2003-01-01T00:00:00Z"]) ∧
    "2003-01-01T00:00:00Z" ≠ "2002-01-01T00:00:00Z" := by
  constructor
  · decide
  · decide

/-- Claim C3, counterexample: with templates "A" and "B" sharing the single
word "w", the compiled automaton associates "w" with the single pair
("B", "w") — the pair ("A", "w") has been overwritten, so the shared word
does not resolve to both pairs. -/
theorem C3_counterexample :
    pairsFor (build_trie sharedWordDict) "w" = [("B", "w")] ∧
    ("A", "w") ∉ pairsFor (build_trie sharedWordDict) "w" := by
  constructor
  · decide
  · decide

/-- Claim C9: reading the feature JSON object produced by `Page.to_dict`
back recovers the page's id, namespace, title, and its exact number of
revisions. -/
theorem C9_roundtrip (p : Page) :
    jsonLookup (Page.toDict p) "id" = some (Json.num p.id) ∧
    jsonLookup (Page.toDict p) "namespace" = some (Json.num p.nspace) ∧
    jsonLookup (Page.toDict p) "title" = some (Json.str p.title) ∧
    ∃ revs : List Json,
      jsonLookup (Page.toDict p) "revisions" = some (Json.arr revs) ∧
      revs.length = p.revisions.length := by
  refine ⟨rfl, rfl, rfl, p.revisions.map Revision.toDict, rfl, ?_⟩
  simp

lemma scanRevs_onlyLast (matcher : MwRevision → List UWTemplate) (uw : Bool)
    (mws : List MwRevision) :
    ∀ (cur : Option Revision) (em : List Revision) (n : Nat),
      mws ≠ [] → scanRevs matcher true uw cur mws = some (em, n) →
      ∃ nr : Revision, newestAfter matcher cur mws = some (some nr) ∧
        em = (if uw && nr.templates.isEmpty then [] else [nr]) := by
  induction mws with
  | nil => intro cur em n hne _; exact absurd rfl hne
  | cons mw rest ih =>
    intro cur em n _ h
    simp only [scanRevs] at h
    split at h
    · exact absurd h (by simp)
    · rename_i nr hu
      split at h
      · exact absurd h (by simp)
      · rename_i pr tl n' hs
        injection h with h'
        cases h'
        cases rest with
        | nil =>
          simp only [scanRevs] at hs
          injection hs with hs'
          cases hs'
          refine ⟨nr, by simp [newestAfter, hu], ?_⟩
          cases uw <;> cases hnr : nr.templates.isEmpty <;>
            simp [emittedOf, hnr]
        | cons mw2 rest2 =>
          obtain ⟨nr', hna, hem⟩ := ih (some nr) tl n' (by simp) hs
          refine ⟨nr', ?_, ?_⟩
          · simp only [newestAfter]
            rw [hu]
            exact hna
          · simp [emittedOf, hem]

lemma scanRevs_noLast_uw (matcher : MwRevision → List UWTemplate)
    (mws : List MwRevision) :
    ∀ (cur : Option Revision) (em : List Revision) (n : Nat),
      scanRevs matcher false true cur mws = some (em, n) →
      em = (mws.map (mkRev matcher)).filter (fun r => !r.templates.isEmpty) := by
  induction mws with
  | nil =>
    intro cur em n h
    simp only [scanRevs] at h
    injection h with h'
    cases h'
    simp
  | cons mw rest ih =>
    intro cur em n h
    simp only [scanRevs] at h
    split at h
    · exact absurd h (by simp)
    · rename_i nr hu
      split at h
      · exact absurd h (by simp)
      · rename_i pr tl n' hs
        injection h with h'
        cases h'
        rw [ih (some nr) tl n' hs]
        cases hm : (mkRev matcher mw).templates.isEmpty <;>
          simp [emittedOf, List.filter_cons, hm]


/-- Claim C2 as amended: with `only_last_revision=true`, what is emitted at
the end of a non-empty page is the held timestamp-newest revision itself —
also in the true/true case, where that same newest revision's matches gate
the emission.  The dump-order-last revision is not emitted when it is not
the newest. -/
theorem C2_amended_onlyLast_emits_newest (matcher : MwRevision → List UWTemplate)
    (uw : Bool) (pg : MwPage) (em : List Revision) (n : Nat)
    (hne : pg.revisions ≠ [])
    (h : extractRevisions matcher true uw pg = some (em, n)) :
    ∃ nr : Revision, newestAfter matcher none pg.revisions = some (some nr) ∧
      em = (if uw && nr.templates.isEmpty then [] else [nr]) :=
  scanRevs_onlyLast matcher uw pg.revisions none em n hne h

/-- Claim C2 witness: the amended statement applied to the non-monotonic
page, with the timestamp-newest revision (id 2, T3) the one emitted. -/
theorem C2_witness :
    nonMonotonicPage.revisions ≠ [] ∧
    ∃ nr : Revision,
      newestAfter (fun _ => []) none nonMonotonicPage.revisions = some (some nr) ∧
      [({ id := 2, user := none, timestamp := "2003-01-01T00:00:00Z",
          templates := [] } : Revision)]
        = (if false && nr.templates.isEmpty then [] else [nr]) :=
  ⟨by simp [nonMonotonicPage],
   C2_amended_onlyLast_emits_newest (fun _ => []) false nonMonotonicPage _ 3
     (by simp [nonMonotonicPage]) rfl⟩

/-- Claim C4: with `only_last_revision=false` and
`only_revisions_with_user_warnings=true`, the revisions emitted for a page
are exactly the revisions whose own match list is non-empty, in dump
order. -/
theorem C4_own_matches_gate (matcher : MwRevision → List UWTemplate)
    (pg : MwPage) (em : List Revision) (n : Nat)
    (h : extractRevisions matcher false true pg = some (em, n)) :
    em = (pg.revisions.map (mkRev matcher)).filter
           (fun r => !r.templates.isEmpty) :=
  scanRevs_noLast_uw matcher pg.revisions none em n h

/-- Claim C4 witness: on a two-revision page where only the first revision
matches, exactly that revision is emitted. -/
theorem C4_witness :
    extractRevisions warnMatcher false true
        { id := 4, nspace := 3, title := "User talk:Delta",
          revisions :=
            [ { id := 10, user := none, timestamp := "2020-01-01T00:00:00Z", text := "stop" }
            , { id := 11, user := none, timestamp := "2020-01-02T00:00:00Z", text := "ok" } ] }
      = some ([{ id := 10, user := none, timestamp := "2020-01-01T00:00:00Z",
                 templates := [{ name := "uw-vandalism", dict := Json.null }] }], 2) ∧
    ([{ id := 10, user := none, timestamp := "2020-01-01T00:00:00Z",
        templates := [{ name := "uw-vandalism", dict := Json.null }] }] : List Revision)
      = (({ id := 4, nspace := 3, title := "User talk:Delta",
            revisions :=
              [ { id := 10, user := none, timestamp := "2020-01-01T00:00:00Z", text := "stop" }
              , { id := 11, user := none, timestamp := "2020-01-02T00:00:00Z", text := "ok" } ] } : MwPage).revisions.map
            (mkRev warnMatcher)).filter (fun r => !r.templates.isEmpty) :=
  ⟨rfl,
   C4_own_matches_gate warnMatcher
     { id := 4, nspace := 3, title := "User talk:Delta",
       revisions :=
         [ { id := 10, user := none, timestamp := "2020-01-01T00:00:00Z", text := "stop" }
         , { id := 11, user := none, timestamp := "2020-01-02T00:00:00Z", text := "ok" } ] }
     _ 2 rfl⟩

/-- Claim C7: the held newest revision is replaced exactly when the
incoming revision's parsed instant is strictly greater; on equal instants
the earlier held revision is retained; and on a single-revision page under
`only_last_revision` the lone revision is both the held newest and the
last, and is the one emitted. -/
theorem C7_newest_selection (matcher : MwRevision → List UWTemplate)
    (nr rev : Revision) (nd cd : Instant) (mw : MwRevision)
    (h1 : parseISO nr.timestamp = some nd)
    (h2 : parseISO rev.timestamp = some cd) :
    updateNewest (some nr) rev = some (if instantLt nd cd then rev else nr) ∧
    (nd = cd → updateNewest (some nr) rev = some nr) ∧
    scanRevs matcher true false none [mw] = some ([mkRev matcher mw], 1) := by
  refine ⟨?_, ?_, rfl⟩
  · simp [updateNewest, h1, h2]
  · intro he
    simp [updateNewest, h1, h2, he, instantLt_irrefl]

/-- Claim C7 witness: two revisions with equal timestamps — the earlier one
is retained — together with the single-revision page case. -/
theorem C7_witness :
    parseISO "2001-01-01T00:00:00Z" = some (2001, 1, 1, 0, 0, 0) ∧
    updateNewest
        (some { id := 1, user := none, timestamp := "2001-01-01T00:00:00Z", templates := [] })
        { id := 2, user := none, timestamp := "2001-01-01T00:00:00Z", templates := [] }
      = some { id := 1, user := none, timestamp := "2001-01-01T00:00:00Z", templates := [] } ∧
    scanRevs (fun _ => []) true false none
        [{ id := 5, user := none, timestamp := "2020-05-05T05:05:05Z", text := "t" }]
      = some ([mkRev (fun _ => [])
          { id := 5, user := none, timestamp := "2020-05-05T05:05:05Z", text := "t" }], 1) :=
  ⟨by decide,
   (C7_newest_selection (fun _ => [])
     { id := 1, user := none, timestamp := "2001-01-01T00:00:00Z", templates := [] }
     { id := 2, user := none, timestamp := "2001-01-01T00:00:00Z", templates := [] }
     (2001, 1, 1, 0, 0, 0) (2001, 1, 1, 0, 0, 0)
     { id := 5, user := none, timestamp := "2020-05-05T05:05:05Z", text := "t" }
     (by decide) (by decide)).2.1 rfl,
   (C7_newest_selection (fun _ => [])
     { id := 1, user := none, timestamp := "2001-01-01T00:00:00Z", templates := [] }
     { id := 2, user := none, timestamp := "2001-01-01T00:00:00Z", templates := [] }
     (2001, 1, 1, 0, 0, 0) (2001, 1, 1, 0, 0, 0)
     { id := 5, user := none, timestamp := "2020-05-05T05:05:05Z", text := "t" }
     (by decide) (by decide)).2.2⟩

lemma countOf_cons (k' : String) (v : Nat) (rest : List (String × Nat)) (x : String) :
    countOf ((k', v) :: rest) x = if k' = x then v else countOf rest x := by
  by_cases h : k' = x <;> simp [countOf, assocLookup, h]

lemma countOf_bumpName (tr : List (String × Nat)) (k x : String) :
    countOf (bumpName tr k) x = countOf tr x + if x = k then 1 else 0 := by
  induction tr with
  | nil =>
    by_cases hx : x = k
    · subst hx; simp [bumpName, countOf, assocLookup]
    · simp [bumpName, countOf, assocLookup, Ne.symm hx, hx]
  | cons kv rest ih =>
    obtain ⟨k', v⟩ := kv
    by_cases hk : k' = k
    · subst hk
      by_cases hx : x = k'
      · subst hx; simp [bumpName, countOf_cons]
      · simp [bumpName, countOf_cons, Ne.symm hx, hx]
    · by_cases hx : x = k'
      · subst hx
        simp [bumpName, hk, countOf_cons]
      · simp [bumpName, hk, countOf_cons, Ne.symm hx, hx, ih]

lemma mem_dedupFirstAux (x : String) (l : List String) :
    ∀ seen, x ∈ dedupFirstAux seen l ↔ x ∈ l ∧ x ∉ seen := by
  induction l with
  | nil => simp [dedupFirstAux]
  | cons y ys ih =>
    intro seen
    by_cases hy : y ∈ seen
    · simp only [dedupFirstAux, if_pos hy, ih, List.mem_cons]
      constructor
      · exact fun h => ⟨Or.inr h.1, h.2⟩
      · rintro ⟨h | h, hns⟩
        · exact absurd (h ▸ hy) hns
        · exact ⟨h, hns⟩
    · simp only [dedupFirstAux, if_neg hy, List.mem_cons, ih, List.mem_cons]
      constructor
      · rintro (h | ⟨h1, h2⟩)
        · exact ⟨Or.inl h, h ▸ hy⟩
        · exact ⟨Or.inr h1, fun hs => h2 (Or.inr hs)⟩
      · rintro ⟨h | h, hns⟩
        · exact Or.inl h
        · by_cases hxy : x = y
          · exact Or.inl hxy
          · exact Or.inr ⟨h, fun hs => (hs.elim hxy hns)⟩

lemma nodup_dedupFirstAux (l : List String) :
    ∀ seen, (dedupFirstAux seen l).Nodup := by
  induction l with
  | nil => intro seen; simp [dedupFirstAux]
  | cons y ys ih =>
    intro seen
    by_cases hy : y ∈ seen
    · simpa [dedupFirstAux, if_pos hy] using ih seen
    · simp only [dedupFirstAux, if_neg hy, List.nodup_cons]
      refine ⟨?_, ih (y :: seen)⟩
      intro hmem
      exact ((mem_dedupFirstAux y ys (y :: seen)).mp hmem).2 (by simp)

lemma nodup_dedupFirst (l : List String) : (dedupFirst l).Nodup :=
  nodup_dedupFirstAux l []

lemma mem_dedupFirst (x : String) (l : List String) :
    x ∈ dedupFirst l ↔ x ∈ l := by
  simp [dedupFirst, mem_dedupFirstAux]

lemma countOf_foldl_bumpName (names : List String) :
    ∀ (tr : List (String × Nat)) (x : String), names.Nodup →
      countOf (names.foldl bumpName tr) x
        = countOf tr x + if x ∈ names then 1 else 0 := by
  induction names with
  | nil => intro tr x _; simp
  | cons k ks ih =>
    intro tr x hnd
    rw [List.nodup_cons] at hnd
    simp only [List.foldl_cons]
    rw [ih _ x hnd.2, countOf_bumpName]
    by_cases hx : x = k
    · subst hx
      have hks : x ∉ ks := hnd.1
      simp [hks]
    · simp [List.mem_cons, hx]

/-- Claim C5: processing one page bumps `template_recognized` by exactly
one for every template name matched in some retained revision of that
page, and leaves every other name's count unchanged — so a template
matching in several revisions of the same page is still counted once. -/
theorem C5_template_recognized_once_per_page (tr : List (String × Nat))
    (revs : List Revision) (x : String) :
    countOf (updateTemplateRecognized tr revs) x
      = countOf tr x + if x ∈ namesOf revs then 1 else 0 := by
  unfold updateTemplateRecognized
  rw [countOf_foldl_bumpName _ tr x (nodup_dedupFirst _)]
  congr 1
  by_cases hx : x ∈ namesOf revs <;> simp [mem_dedupFirst, hx]

lemma processLines_map_some_append_none (pre : List TemplatePage) :
    ∀ (d : TemplateDict) (rest : List (Option TemplatePage)),
      processLines d (pre.map some ++ none :: rest)
        = processLines d (pre.map some) := by
  induction pre with
  | nil => intro d rest; simp [processLines]
  | cons tp pre' ih =>
    intro d rest
    simp only [List.map_cons, List.cons_append, processLines]
    exact ih _ rest

/-- Claim C8: a malformed token-file line never aborts the whole run — the
remainder of that file is abandoned silently, while the records of the
file's earlier lines and of all other files, earlier and later, are
retained exactly as if the file had ended before the malformed line. -/
theorem C8_parse_failure_isolated (files1 : List TokenFile)
    (pre : List TemplatePage) (rest : List (Option TemplatePage))
    (files2 : List TokenFile) :
    extract_templates_words (files1 ++ (pre.map some ++ none :: rest) :: files2)
      = extract_templates_words (files1 ++ pre.map some :: files2) := by
  simp only [extract_templates_words, List.foldl_append, List.foldl_cons]
  rw [processLines_map_some_append_none]

lemma assocLookup_dictSet_self (d : TemplateDict) (k : String) (v : List Snapshot) :
    assocLookup k (dictSet d k v) = some v := by
  induction d with
  | nil => simp [dictSet, assocLookup]
  | cons kv rest ih =>
    obtain ⟨k', v'⟩ := kv
    by_cases hk : k' = k
    · simp [dictSet, hk, assocLookup]
    · simp [dictSet, hk, assocLookup, ih]

lemma processLines_all_some (mid : List (Option TemplatePage)) :
    ∀ (d : TemplateDict) (tail : List (Option TemplatePage)),
      (∀ l ∈ mid, l.isSome) →
      processLines d (mid ++ tail) = processLines (processLines d mid) tail := by
  induction mid with
  | nil => intro d tail _; simp [processLines]
  | cons l rest ih =>
    intro d tail hall
    cases l with
    | none => exact absurd (hall none (by simp)) (by simp)
    | some tp =>
      simp only [List.cons_append, processLines]
      exact ih _ tail (fun x hx => hall x (by simp [hx]))

/-- Claim C10: when the same template title occurs on several parsed lines,
the dictionary keeps exactly the snapshots of the last such line — each
occurrence resets the title's entry before appending, so earlier snapshots
are discarded, not merged. -/
theorem C10_last_line_wins (d : TemplateDict) (t : String)
    (rs1 rs2 : List Snapshot) (mid : List (Option TemplatePage))
    (hmid : ∀ l ∈ mid, l.isSome) :
    assocLookup t (processLines d
        ((some { title := t, revisions := rs1 }) ::
          (mid ++ [some { title := t, revisions := rs2 }])))
      = some rs2 := by
  simp only [processLines]
  rw [processLines_all_some mid _ _ hmid]
  simp [processLines, assocLookup_dictSet_self]

/-- Claim C10 witness: two lines titled "T" separated by a parsed line with
another title; the final entry for "T" is the second line's snapshots. -/
theorem C10_witness :
    assocLookup "T" (processLines []
        ((some { title := "T", revisions := [(["a"], "t1")] }) ::
          ([some { title := "U", revisions := [] }] ++
            [some { title := "T", revisions := [(["b"], "t2")] }])))
      = some [(["b"], "t2")] :=
  C10_last_line_wins [] "T" [(["a"], "t1")] [(["b"], "t2")]
    [some { title := "U", revisions := [] }] (by simp)

lemma assocLookup_addWord_self (t : Trie) (k : String) (v : String × String) :
    assocLookup k (addWord t k v) = some v := by
  induction t with
  | nil => simp [addWord, assocLookup]
  | cons kv rest ih =>
    obtain ⟨k', v'⟩ := kv
    by_cases hk : k' = k
    · simp [addWord, hk, assocLookup]
    · simp [addWord, hk, assocLookup, ih]

lemma assocLookup_addWord_ne (t : Trie) (k w : String) (v : String × String)
    (h : ¬ k = w) :
    assocLookup w (addWord t k v) = assocLookup w t := by
  induction t with
  | nil => simp [addWord, assocLookup, h]
  | cons kv rest ih =>
    obtain ⟨k', v'⟩ := kv
    by_cases hk : k' = k
    · subst hk
      simp [addWord, assocLookup, h]
    · by_cases hw : k' = w
      · simp [addWord, hk, assocLookup, hw, Ne.symm h]
      · simp [addWord, hk, assocLookup, hw, ih]

lemma lookup_foldl_addWord (ins : List (String × (String × String))) :
    ∀ (t : Trie) (w : String),
      assocLookup w (ins.foldl (fun tr kv => addWord tr kv.fst kv.snd) t)
        = (match lastValueFor w ins with
           | some v => some v
           | none => assocLookup w t) := by
  induction ins with
  | nil => intro t w; simp [lastValueFor]
  | cons kv rest ih =>
    intro t w
    simp only [List.foldl_cons]
    rw [ih]
    cases hl : lastValueFor w rest with
    | some v => simp [lastValueFor, hl]
    | none =>
      by_cases hk : kv.fst = w
      · subst hk
        simp [lastValueFor, hl, assocLookup_addWord_self]
      · simp [lastValueFor, hl, hk, assocLookup_addWord_ne _ _ _ _ hk]

lemma addWords_eq (tmpl : String) (t : Trie) (ws : List String) :
    addWords tmpl t ws
      = (ws.map (fun w => (w, (tmpl, w)))).foldl
          (fun tr kv => addWord tr kv.fst kv.snd) t := by
  rw [List.foldl_map]
  rfl

lemma snapFold_eq (tmpl : String) (snaps : List Snapshot) :
    ∀ t : Trie,
      snaps.foldl (fun t snap => addWords tmpl t snap.fst) t
        = (snaps.flatMap (fun snap => snap.fst.map (fun w => (w, (tmpl, w))))).foldl
            (fun tr kv => addWord tr kv.fst kv.snd) t := by
  induction snaps with
  | nil => intro t; simp
  | cons s rest ih =>
    intro t
    simp only [List.foldl_cons, List.flatMap_cons, List.foldl_append]
    rw [addWords_eq, ih]

lemma build_trie_foldl (d : TemplateDict) :
    ∀ t : Trie,
      d.foldl (fun trie entry =>
          entry.snd.foldl (fun t snap => addWords entry.fst t snap.fst) trie) t
        = (insertionsOf d).foldl (fun tr kv => addWord tr kv.fst kv.snd) t := by
  induction d with
  | nil => intro t; simp [insertionsOf]
  | cons entry rest ih =>
    intro t
    simp only [List.foldl_cons, insertionsOf, List.flatMap_cons, List.foldl_append]
    rw [snapFold_eq, ih]
    simp [insertionsOf]

/-- Claim C3 as amended: the compiled automaton is dict-like — after
`build_trie` a literal pattern resolves to exactly the single
`(template_name, word)` pair of its most recent insertion, every earlier
pair for the same word having been overwritten rather than accumulated. -/
theorem C3_amended_last_insertion_wins (d : TemplateDict) (w : String) :
    pairsFor (build_trie d) w
      = (match lastValueFor w (insertionsOf d) with
         | some v => [v]
         | none => []) := by
  unfold pairsFor build_trie
  rw [build_trie_foldl, lookup_foldl_addWord]
  cases hl : lastValueFor w (insertionsOf d) <;> simp [assocLookup]
